import Mathlib

/-!
Shallow embedding of `src/baxter_pick_and_place/machine_vision.py`, the
segmentation cascade of the baxter_pick_and_place repository.

Grayscale images are grids of natural-number intensities, colour images are
grids of channel triples.  OpenCV primitives whose internals the repository
merely calls (Canny, morphology, findContours, floodFill, minAreaRect, ...)
are deterministic abstract functions collected in the `Prims` structure; the
repository's own logic — the cascade control flow, the contour-selection
loop, the numpy mask padding, the channel splits and the binary threshold
whose pointwise semantics the code relies on — is embedded concretely.
-/

/-- A grayscale image: a grid of 8-bit intensities. -/
abbrev Gray : Type := List (List Nat)

/-- A colour pixel: a triple of channel intensities in storage order
`(channel 0, channel 1, channel 2)`.  OpenCV stores colour images as
(blue, green, red); `machine_vision.py`'s own comments call
`cv2.split(img)[2]` the red channel and `cv2.split(img)[0]` the blue
channel, which is exactly that layout. -/
abbrev BGR : Type := Nat × Nat × Nat

/-- A colour image: a grid of `BGR` pixels. -/
abbrev Img : Type := List (List BGR)

/-- Rotated rectangle `((center_x, center_y), (size_w, size_h), angle)`, the
value returned by `cv2.minAreaRect`. -/
abbrev RRect : Type := (ℚ × ℚ) × (ℚ × ℚ) × ℚ

/-- Return value of the segmentation routines:
`((rrect, box), (x, y, w, h))` (machine_vision.py line 121). -/
abbrev SegResult : Type := (RRect × List (ℚ × ℚ)) × (ℕ × ℕ × ℕ × ℕ)

/-- The only failure the segmentation routines signal:
`raise ValueError('No contour found!')` (lines 92, 144, 195). -/
inductive SegError : Type where
  | noContourFound : SegError
deriving DecidableEq

/-- The OpenCV / ROS primitives the module calls, as deterministic abstract
functions.  `M` is the type of ROS image messages, `C` the type of contours
(`cv2.findContours` output elements).

The field `imgmsg2img` is repository code (module
`baxter_pick_and_place.image`) that is not under `src/`.
Modelled from the spec: the spec describes the segmenter's input as "one
color frame (fixed-depth 3-channel raster)", so `imgmsg2img` is an abstract
conversion from a message to such a raster. -/
structure Prims (M C : Type) where
  imgmsg2img : M → Img
  cvtColor_RGB2GRAY : Img → Gray
  cvtColor_BGR2RGB : Img → Img
  equalizeHist : Gray → Gray
  /-- `cv2.morphologyEx(.., cv2.MORPH_OPEN, kernel, iterations)`;
  arguments: image, kernel side length, iterations. -/
  morphologyEx_open : Gray → ℕ → ℕ → Gray
  /-- `cv2.morphologyEx(.., cv2.MORPH_GRADIENT, kernel, iterations)`. -/
  morphologyEx_gradient : Gray → ℕ → ℕ → Gray
  /-- `cv2.morphologyEx(.., cv2.MORPH_CLOSE, kernel, iterations)`. -/
  morphologyEx_close : Gray → ℕ → ℕ → Gray
  /-- `cv2.Canny(img, c_low, c_high, apertureSize)`. -/
  canny : Gray → ℚ → ℚ → ℕ → Gray
  /-- `cv2.findContours(img, cv2.RETR_LIST, cv2.CHAIN_APPROX_SIMPLE)`,
  first component (the mode arguments are fixed in the source). -/
  findContours : Gray → List C
  /-- `cv2.contourArea`, a nonnegative float; modelled in `ℚ`. -/
  contourArea : C → ℚ
  /-- `cv2.floodFill(image, mask, seedPoint, newVal, loDiff, upDiff, flags)`;
  returns the filled image (the source reads only the image afterwards; the
  mask is a freshly allocated scratch buffer). -/
  floodFill : Gray → Gray → ℕ × ℕ → ℕ × ℕ × ℕ → ℕ × ℕ × ℕ → ℕ × ℕ × ℕ → ℕ → Gray
  minAreaRect : C → RRect
  /-- `cv2.cv.BoxPoints`: the four corner points of a rotated rectangle. -/
  boxPoints : RRect → List (ℚ × ℚ)
  boundingRect : C → ℕ × ℕ × ℕ × ℕ
  /-- `np.int0`, rounding box corners to integer points. -/
  int0 : List (ℚ × ℚ) → List (ℤ × ℤ)
  /-- `cv2.drawContours(img, contours, idx, color, thickness)`, returning
  the drawn-on buffer (in the source it mutates its first argument). -/
  drawContours : Img → List (List (ℤ × ℤ)) → ℤ → ℕ × ℕ × ℕ → ℕ → Img
  circle : Img → ℤ × ℤ → ℕ → ℕ × ℕ × ℕ → ℕ → Img
  rectangle : Img → ℤ × ℤ → ℤ × ℤ → ℕ × ℕ × ℕ → ℕ → Img

/-- `cv2.threshold(src, th, 255, cv2.THRESH_BINARY)`: every pixel strictly
above `th` becomes 255, every other pixel 0 (the fixed, documented pointwise
semantics of binary thresholding, which lines 54, 141 and 192 rely on). -/
def threshold (g : Gray) (th : ℕ) : Gray :=
  g.map fun row => row.map fun p => if th < p then 255 else 0

/-- `cv2.split`: the list of single-channel planes of a 3-channel image, in
storage order. -/
def split (img : Img) : List Gray :=
  [img.map fun row => row.map fun p => p.1,
   img.map fun row => row.map fun p => p.2.1,
   img.map fun row => row.map fun p => p.2.2]

/-- `cv2.split(img)[2]` — "look only at red channel" (line 139-140). -/
def redChannel (img : Img) : Gray := (split img).getD 2 []

/-- `cv2.split(img)[0]` — "look only at blue channel" (line 190-191). -/
def blueChannel (img : Img) : Gray := (split img).getD 0 []

/-- One iteration of the selection loop of `_extract_contour`
(lines 245-250).  The state is `(max_area, contour)`, initially
`(0.0, None)`; a contour is taken when its area lies strictly inside the
band and strictly exceeds the running maximum. -/
def selectStep {C : Type} (area : C → ℚ) (a_low a_high : ℚ)
    (s : ℚ × Option C) (c : C) : ℚ × Option C :=
  if a_low < area c ∧ area c < a_high then
    if s.1 < area c then (area c, some c) else s
  else s

/-- The whole selection loop of `_extract_contour` (lines 243-251). -/
def selectContour {C : Type} (area : C → ℚ) (a_low a_high : ℚ)
    (cs : List C) : Option C :=
  (cs.foldl (selectStep area a_low a_high) (0, none)).2

/-- `_extract_contour` (lines 226-251): Canny with aperture size 3, one
morphological closing pass with a 3×3 kernel, contour enumeration, then the
selection loop. -/
def extract_contour {M C : Type} (P : Prims M C) (img : Gray)
    (c_low c_high a_low a_high : ℚ) : Option C :=
  let canny := P.canny img c_low c_high 3
  let closed := P.morphologyEx_close canny 3 1
  let contours := P.findContours closed
  selectContour P.contourArea a_low a_high contours

/-- Result construction shared by all three entry points
(lines 94-98 and 121): rotated rect via `minAreaRect`, its corner points via
`BoxPoints`, upright box via `boundingRect`. -/
def mkResult {M C : Type} (P : Prims M C) (c : C) : SegResult :=
  let rrect := P.minAreaRect c
  let box := P.boxPoints rrect
  let xywh := P.boundingRect c
  ((rrect, box), xywh)

/-- Line 50: `gray = cv2.cvtColor(img, cv2.COLOR_RGB2GRAY)` — the original
grayscale image, before histogram equalization. -/
def grayOf {M C : Type} (P : Prims M C) (msg : M) : Gray :=
  P.cvtColor_RGB2GRAY (P.imgmsg2img msg)

/-- Lines 51-54: histogram equalization then binary threshold — the mask of
the threshold stage. -/
def threshMaskOf {M C : Type} (P : Prims M C) (msg : M) (th : ℕ) : Gray :=
  threshold (P.equalizeHist (grayOf P msg)) th

/-- Lines 60-62: morphological opening (2×2 kernel, 1 iteration) of the
threshold mask — the mask of the opening stage. -/
def openingMaskOf {M C : Type} (P : Prims M C) (msg : M) (th : ℕ) : Gray :=
  P.morphologyEx_open (threshMaskOf P msg th) 2 1

/-- Lines 68-72: a second opening pass then a morphological gradient
(2×2 kernel, 2 iterations) — the mask of the outline stage. -/
def outlineMaskOf {M C : Type} (P : Prims M C) (msg : M) (th : ℕ) : Gray :=
  let closing := P.morphologyEx_open (openingMaskOf P msg th) 2 1
  P.morphologyEx_gradient closing 2 2

/-- `cv2.FLOODFILL_FIXED_RANGE` (1 <<< 16). -/
def floodfillFixedRange : ℕ := 65536

/-- Line 81: `seed_pt = (mask.shape[0], 0)` where `mask` has `h + 2` rows,
`h` being the height of the outline mask.  OpenCV points are `(x, y)`, so
the second coordinate 0 puts the seed on the top row. -/
def floodSeed (o : Gray) : ℕ × ℕ := (o.length + 2, 0)

/-- Lines 78-80: `mask = np.zeros((h+2, w+2)); mask[1:-1, 1:-1] = outline` —
the outline mask padded with one zero pixel on each border. -/
def padMask (o : Gray) : Gray :=
  let w := (o.headD []).length
  List.replicate (w + 2) 0 ::
    (o.map fun row => 0 :: row ++ [0]) ++ [List.replicate (w + 2) 0]

/-- Lines 77-85: the flood-filled image of the fourth cascade stage.  The
fill source is `gray.copy()` — the original grayscale image, not any
upstream mask — with `newVal = (255,)*3`, `loDiff = (50,)*3`,
`upDiff = (255,)*3` and `flags = ff_connectivity | cv2.FLOODFILL_FIXED_RANGE`. -/
def floodedOf {M C : Type} (P : Prims M C) (msg : M) (th : ℕ)
    (ff_connectivity : ℕ) : Gray :=
  let outline := outlineMaskOf P msg th
  P.floodFill (grayOf P msg) (padMask outline) (floodSeed outline)
    (255, 255, 255) (50, 50, 50) (255, 255, 255)
    (ff_connectivity ||| floodfillFixedRange)

/-- Lines 53-90: the fallback cascade.  Each stage is attempted only when
every earlier stage produced no contour; the stage expressions occur only in
the corresponding `match` branches, mirroring the nested `if`/`else` of the
source. -/
def cascadeContour {M C : Type} (P : Prims M C) (imgmsg : M) (th : ℕ)
    (c_low c_high : ℚ) (ff_connectivity : ℕ) (a_low a_high : ℚ) : Option C :=
  match extract_contour P (threshMaskOf P imgmsg th) c_low c_high a_low a_high with
  | some c => some c
  | none =>
    match extract_contour P (openingMaskOf P imgmsg th) c_low c_high a_low a_high with
    | some c => some c
    | none =>
      match extract_contour P (outlineMaskOf P imgmsg th) c_low c_high a_low a_high with
      | some c => some c
      | none =>
        extract_contour P (floodedOf P imgmsg th ff_connectivity) c_low c_high a_low a_high

/-- `segment_area` (lines 33-121).  `outpath` models whether a diagnostic
output path was supplied; the diagnostic rendering touches no returned
value, so it does not appear here (see `segment_area_frame` for the
buffer-level view). -/
def segment_area {M C : Type} (P : Prims M C) (imgmsg : M) (outpath : Bool)
    (th : ℕ) (c_low c_high : ℚ) (ff_connectivity : ℕ) (a_low a_high : ℚ) :
    Except SegError SegResult :=
  match cascadeContour P imgmsg th c_low c_high ff_connectivity a_low a_high with
  | none => .error .noContourFound
  | some c => .ok (mkResult P c)

/-- The cascade together with the list of stage titles attempted, in order
(titles from lines 58, 66, 76, 90).  A stage's title is recorded exactly
when the stage is evaluated. -/
def segment_area_stages {M C : Type} (P : Prims M C) (imgmsg : M) (th : ℕ)
    (c_low c_high : ℚ) (ff_connectivity : ℕ) (a_low a_high : ℚ) :
    Option C × List String :=
  match extract_contour P (threshMaskOf P imgmsg th) c_low c_high a_low a_high with
  | some c => (some c, ["threshold"])
  | none =>
    match extract_contour P (openingMaskOf P imgmsg th) c_low c_high a_low a_high with
    | some c => (some c, ["threshold", "opening"])
    | none =>
      match extract_contour P (outlineMaskOf P imgmsg th) c_low c_high a_low a_high with
      | some c => (some c, ["threshold", "opening", "outline"])
      | none =>
        (extract_contour P (floodedOf P imgmsg th ff_connectivity) c_low c_high a_low a_high,
         ["threshold", "opening", "outline", "flooded"])

/-- Python `int()` on a rational: truncation toward zero. -/
def truncQ (q : ℚ) : ℤ := q.num / (q.den : ℤ)

/-- `segment_area` with the contents of the caller's frame buffer threaded
explicitly; the second component of the result is the frame's pixel data
after the call.  Every in-place write in the source targets a freshly
allocated array — `flooded = gray.copy()` (line 82), the `np.zeros` mask
(line 79), and `sample = cv2.cvtColor(img, ...)` (line 106) — never `img`
itself, so the frame contents are only ever read. -/
def segment_area_frame {M C : Type} (P : Prims M C) (imgmsg : M)
    (outpath : Bool) (th : ℕ) (c_low c_high : ℚ) (ff_connectivity : ℕ)
    (a_low a_high : ℚ) : Except SegError SegResult × Img :=
  let img := P.imgmsg2img imgmsg
  match cascadeContour P imgmsg th c_low c_high ff_connectivity a_low a_high with
  | none => (.error .noContourFound, img)
  | some c =>
    let rrect := P.minAreaRect c
    let box := P.boxPoints rrect
    let xywh := P.boundingRect c
    if outpath then
      -- lines 100-119: all drawing targets `sample`, a fresh conversion
      -- copy of the frame; `plt` rendering reads `array` and `sample` only.
      let sample := P.cvtColor_BGR2RGB img
      let b := P.int0 box
      let sample1 := P.drawContours sample [b] 0 (0, 255, 0) 2
      let sample2 := P.circle sample1 (truncQ rrect.1.1, truncQ rrect.1.2) 4 (0, 255, 0) 2
      let sample3 := P.rectangle sample2 ((xywh.1 : ℤ), (xywh.2.1 : ℤ))
        (((xywh.1 + xywh.2.2.1 : ℕ) : ℤ), ((xywh.2.1 + xywh.2.2.2 : ℕ) : ℤ)) (255, 0, 0) 2
      let sample4 := P.circle sample3
        (((xywh.1 + xywh.2.2.1 / 2 : ℕ) : ℤ), ((xywh.2.1 + xywh.2.2.2 / 2 : ℕ) : ℤ))
        3 (255, 0, 0) 2
      (.ok ((rrect, box), xywh), img)
    else
      (.ok ((rrect, box), xywh), img)

/-- `segment_red_area` (lines 124-172): single direct
threshold-then-extract step on `cv2.split(img)[2]`; no fallback stages. -/
def segment_red_area {M C : Type} (P : Prims M C) (imgmsg : M)
    (outpath : Bool) (th : ℕ) (c_low c_high a_low a_high : ℚ) :
    Except SegError SegResult :=
  let img := P.imgmsg2img imgmsg
  let red := redChannel img
  let thresh := threshold red th
  match extract_contour P thresh c_low c_high a_low a_high with
  | none => .error .noContourFound
  | some c => .ok (mkResult P c)

/-- `segment_blue_area` (lines 175-223): single direct
threshold-then-extract step on `cv2.split(img)[0]`; no fallback stages. -/
def segment_blue_area {M C : Type} (P : Prims M C) (imgmsg : M)
    (outpath : Bool) (th : ℕ) (c_low c_high a_low a_high : ℚ) :
    Except SegError SegResult :=
  let img := P.imgmsg2img imgmsg
  let blue := blueChannel img
  let thresh := threshold blue th
  match extract_contour P thresh c_low c_high a_low a_high with
  | none => .error .noContourFound
  | some c => .ok (mkResult P c)

/-- Replace exactly the primitives that only the fallback stages of
`segment_area` use (morphological opening, morphological gradient, flood
fill), keeping every other primitive. -/
def Prims.withFallbackOps {M C : Type} (P : Prims M C)
    (mo mg : Gray → ℕ → ℕ → Gray)
    (ff : Gray → Gray → ℕ × ℕ → ℕ × ℕ × ℕ → ℕ × ℕ × ℕ → ℕ × ℕ × ℕ → ℕ → Gray) :
    Prims M C where
  imgmsg2img := P.imgmsg2img
  cvtColor_RGB2GRAY := P.cvtColor_RGB2GRAY
  cvtColor_BGR2RGB := P.cvtColor_BGR2RGB
  equalizeHist := P.equalizeHist
  morphologyEx_open := mo
  morphologyEx_gradient := mg
  morphologyEx_close := P.morphologyEx_close
  canny := P.canny
  findContours := P.findContours
  contourArea := P.contourArea
  floodFill := ff
  minAreaRect := P.minAreaRect
  boxPoints := P.boxPoints
  boundingRect := P.boundingRect
  int0 := P.int0
  drawContours := P.drawContours
  circle := P.circle
  rectangle := P.rectangle

/-- Pixel access with default 0, the reading `np.ndarray` indexing is given
in the padding lemmas: `getPx g i j` is row `i`, column `j`. -/
def getPx (g : Gray) (i j : ℕ) : ℕ := (g.getD i []).getD j 0

/-- A concrete primitive instantiation used to evaluate the embedding on
closed inputs: messages are images, contours are naturals whose numeric
value is their area, image-to-image operators are identities, and
`findContours` is supplied per test. -/
def mkTestPrims (fc : Gray → List ℕ) : Prims Img ℕ where
  imgmsg2img := id
  cvtColor_RGB2GRAY := fun img => img.map fun row => row.map fun p => p.1
  cvtColor_BGR2RGB := id
  equalizeHist := id
  morphologyEx_open := fun g _ _ => g
  morphologyEx_gradient := fun g _ _ => g
  morphologyEx_close := fun g _ _ => g
  canny := fun g _ _ _ => g
  findContours := fc
  contourArea := fun c => (c : ℚ)
  floodFill := fun g _ _ _ _ _ _ => g
  minAreaRect := fun _ => ((0, 0), (0, 0), 0)
  boxPoints := fun _ => []
  boundingRect := fun _ => (0, 0, 0, 0)
  int0 := fun _ => []
  drawContours := fun s _ _ _ _ => s
  circle := fun s _ _ _ _ => s
  rectangle := fun s _ _ _ _ => s

/-- `findContours` model that reports one contour of area 150 whenever the
mask has a nonzero pixel, and none otherwise (a constant-zero image has no
edges, hence no contours). -/
def fcNonzero : Gray → List ℕ := fun g =>
  if g.all (fun row => row.all (fun p => p == 0)) then [] else [150]

/-- Test primitives whose `findContours` always reports one contour of
area 150. -/
def testPrims150 : Prims Img ℕ := mkTestPrims (fun _ => [150])

/-- Test primitives whose `findContours` never reports a contour. -/
def testPrimsNone : Prims Img ℕ := mkTestPrims (fun _ => [])

/-- Test primitives whose `findContours` always reports one degenerate
contour of area 0. -/
def testPrimsZero : Prims Img ℕ := mkTestPrims (fun _ => [0])

/-- Test primitives with the nonzero-mask contour model. -/
def testPrimsNZ : Prims Img ℕ := mkTestPrims fcNonzero

/-- A one-pixel frame whose red channel is saturated and whose other
channels are zero. -/
def redPixelFrame : Img := [[(0, 0, 255)]]

/-- A one-pixel frame whose blue channel is saturated and whose other
channels are zero. -/
def bluePixelFrame : Img := [[(255, 0, 0)]]

/-! ### Lemmas about the selection loop -/

lemma selectStep_cases {C : Type} (area : C → ℚ) (al ah : ℚ)
    (s : ℚ × Option C) (c : C) :
    selectStep area al ah s c = s ∨
      ((al < area c ∧ area c < ah ∧ s.1 < area c) ∧
        selectStep area al ah s c = (area c, some c)) := by
  unfold selectStep
  by_cases h1 : al < area c ∧ area c < ah
  · rw [if_pos h1]
    by_cases h2 : s.1 < area c
    · rw [if_pos h2]; exact Or.inr ⟨⟨h1.1, h1.2, h2⟩, rfl⟩
    · rw [if_neg h2]; exact Or.inl rfl
  · rw [if_neg h1]; exact Or.inl rfl

lemma selectStep_fst_le {C : Type} (area : C → ℚ) (al ah : ℚ)
    (s : ℚ × Option C) (c : C) : s.1 ≤ (selectStep area al ah s c).1 := by
  rcases selectStep_cases area al ah s c with h | ⟨⟨_, _, hlt⟩, h⟩
  · rw [h]
  · rw [h]; exact le_of_lt hlt

lemma selectStep_fst_ge {C : Type} (area : C → ℚ) (al ah : ℚ)
    (s : ℚ × Option C) (c : C) (h1 : al < area c) (h2 : area c < ah) :
    area c ≤ (selectStep area al ah s c).1 := by
  unfold selectStep
  rw [if_pos ⟨h1, h2⟩]
  by_cases h3 : s.1 < area c
  · rw [if_pos h3]
  · rw [if_neg h3]; exact le_of_not_lt h3

lemma selectStep_noband {C : Type} (area : C → ℚ) (al ah : ℚ)
    (s : ℚ × Option C) (c : C) (h : ¬(al < area c ∧ area c < ah)) :
    selectStep area al ah s c = s := by
  unfold selectStep; rw [if_neg h]

lemma selectFold_fst_le {C : Type} (area : C → ℚ) (al ah : ℚ) :
    ∀ (cs : List C) (s : ℚ × Option C),
      s.1 ≤ (cs.foldl (selectStep area al ah) s).1 := by
  intro cs
  induction cs with
  | nil => intro s; exact le_refl _
  | cons c cs ih =>
    intro s
    exact le_trans (selectStep_fst_le area al ah s c) (ih _)

lemma selectFold_mem_le {C : Type} (area : C → ℚ) (al ah : ℚ) :
    ∀ (cs : List C) (s : ℚ × Option C) (c : C), c ∈ cs →
      al < area c → area c < ah →
      area c ≤ (cs.foldl (selectStep area al ah) s).1 := by
  intro cs
  induction cs with
  | nil => intro s c hc; exact absurd hc (List.not_mem_nil c)
  | cons c0 cs ih =>
    intro s c hc h1 h2
    rcases List.mem_cons.mp hc with rfl | hc
    · exact le_trans (selectStep_fst_ge area al ah s c h1 h2)
        (selectFold_fst_le area al ah cs _)
    · exact ih _ c hc h1 h2

lemma selectFold_some_persists {C : Type} (area : C → ℚ) (al ah : ℚ) :
    ∀ (cs : List C) (s : ℚ × Option C) (b : C), s.2 = some b →
      ∃ b', (cs.foldl (selectStep area al ah) s).2 = some b' := by
  intro cs
  induction cs with
  | nil => intro s b hs; exact ⟨b, hs⟩
  | cons c cs ih =>
    intro s b hs
    rcases selectStep_cases area al ah s c with h | ⟨_, h⟩
    · rw [List.foldl_cons, h]; exact ih s b hs
    · rw [List.foldl_cons, h]; exact ih (area c, some c) c rfl

lemma selectFold_none_eq {C : Type} (area : C → ℚ) (al ah : ℚ) :
    ∀ (cs : List C) (s : ℚ × Option C),
      (cs.foldl (selectStep area al ah) s).2 = none →
      cs.foldl (selectStep area al ah) s = s := by
  intro cs
  induction cs with
  | nil => intro s _; rfl
  | cons c cs ih =>
    intro s hnone
    rw [List.foldl_cons] at hnone ⊢
    rcases selectStep_cases area al ah s c with h | ⟨_, h⟩
    · rw [h] at hnone ⊢; exact ih s hnone
    · exfalso
      rw [h] at hnone
      obtain ⟨b', hb'⟩ := selectFold_some_persists area al ah cs (area c, some c) c rfl
      rw [hnone] at hb'
      exact Option.noConfusion hb'

lemma selectFold_link {C : Type} (area : C → ℚ) (al ah : ℚ) :
    ∀ (cs : List C) (s : ℚ × Option C),
      (∀ b, s.2 = some b → s.1 = area b) →
      ∀ b, (cs.foldl (selectStep area al ah) s).2 = some b →
        (cs.foldl (selectStep area al ah) s).1 = area b := by
  intro cs
  induction cs with
  | nil => intro s hs b hb; exact hs b hb
  | cons c cs ih =>
    intro s hs b hb
    rw [List.foldl_cons] at hb ⊢
    rcases selectStep_cases area al ah s c with h | ⟨_, h⟩
    · rw [h] at hb ⊢; exact ih s hs b hb
    · rw [h] at hb ⊢
      refine ih _ ?_ b hb
      intro b' hb'
      simp only at hb'
      rw [Option.some_inj] at hb'
      rw [hb']

lemma selectFold_some_src {C : Type} (area : C → ℚ) (al ah : ℚ) :
    ∀ (cs : List C) (s : ℚ × Option C) (b : C),
      (cs.foldl (selectStep area al ah) s).2 = some b →
      s.2 = some b ∨ (b ∈ cs ∧ al < area b ∧ area b < ah) := by
  intro cs
  induction cs with
  | nil => intro s b hb; exact Or.inl hb
  | cons c cs ih =>
    intro s b hb
    rw [List.foldl_cons] at hb
    rcases selectStep_cases area al ah s c with h | ⟨⟨hb1, hb2, _⟩, h⟩
    · rw [h] at hb
      rcases ih s b hb with h' | ⟨hmem, hband⟩
      · exact Or.inl h'
      · exact Or.inr ⟨List.mem_cons_of_mem c hmem, hband⟩
    · rw [h] at hb
      rcases ih _ b hb with h' | ⟨hmem, hband⟩
      · simp only at h'
        rw [Option.some_inj] at h'
        subst h'
        exact Or.inr ⟨List.mem_cons_self _ _, hb1, hb2⟩
      · exact Or.inr ⟨List.mem_cons_of_mem c hmem, hband⟩

lemma selectFold_noband_eq {C : Type} (area : C → ℚ) (al ah : ℚ) :
    ∀ (cs : List C) (s : ℚ × Option C),
      (∀ c ∈ cs, ¬(al < area c ∧ area c < ah)) →
      cs.foldl (selectStep area al ah) s = s := by
  intro cs
  induction cs with
  | nil => intro s _; rfl
  | cons c cs ih =>
    intro s h
    rw [List.foldl_cons, selectStep_noband area al ah s c (h c (List.mem_cons_self _ _))]
    exact ih s fun c' hc' => h c' (List.mem_cons_of_mem c hc')

/-- `selectContour` returns `none` exactly when no contour's area sits
strictly inside the band — provided the lower bound is nonnegative (the
running maximum starts at `0.0`, so this is where the loop agrees with the
plain "band membership" reading). -/
lemma selectContour_none_iff {C : Type} (area : C → ℚ) (al ah : ℚ)
    (cs : List C) (hal : 0 ≤ al) :
    selectContour area al ah cs = none ↔
      ∀ c ∈ cs, ¬(al < area c ∧ area c < ah) := by
  constructor
  · intro hnone c hc hband
    unfold selectContour at hnone
    have heq := selectFold_none_eq area al ah cs (0, none) hnone
    have hle := selectFold_mem_le area al ah cs (0, none) c hc hband.1 hband.2
    rw [heq] at hle
    have : (0 : ℚ) < area c := lt_of_le_of_lt hal hband.1
    exact absurd hle (not_le_of_lt this)
  · intro h
    unfold selectContour
    rw [selectFold_noband_eq area al ah cs (0, none) h]

/-- When `selectContour` picks a contour, that contour came from the list,
its area is strictly inside the band, and its area is maximal among all
in-band contours of the list. -/
lemma selectContour_some_spec {C : Type} (area : C → ℚ) (al ah : ℚ)
    (cs : List C) (b : C) (hb : selectContour area al ah cs = some b) :
    b ∈ cs ∧ al < area b ∧ area b < ah ∧
      ∀ c ∈ cs, al < area c → area c < ah → area c ≤ area b := by
  unfold selectContour at hb
  rcases selectFold_some_src area al ah cs (0, none) b hb with h | ⟨hmem, h1, h2⟩
  · exact absurd h Option.noConfusion
  · refine ⟨hmem, h1, h2, ?_⟩
    intro c hc hc1 hc2
    have hfst := selectFold_link area al ah cs (0, none)
      (fun b' hb' => absurd hb' Option.noConfusion) b hb
    have := selectFold_mem_le area al ah cs (0, none) c hc hc1 hc2
    rw [hfst] at this
    exact this

/-! ### Lemmas about the flood-fill mask padding -/

lemma getD_replicate_zero : ∀ (n j : ℕ), (List.replicate n (0 : ℕ)).getD j 0 = 0 := by
  intro n
  induction n with
  | zero => intro j; cases j <;> rfl
  | succ n ih =>
    intro j
    cases j with
    | zero => rfl
    | succ j => exact ih j

lemma getD_append_single_zero : ∀ (row : List ℕ) (j : ℕ),
    ((row ++ [0]).getD j 0) = row.getD j 0 := by
  intro row
  induction row with
  | nil => intro j; cases j <;> rfl
  | cons a t ih =>
    intro j
    cases j with
    | zero => rfl
    | succ j => exact ih j

lemma getD_map_pad : ∀ (o : List (List ℕ)) (i : ℕ), i < o.length →
    ((o.map fun row => 0 :: row ++ [0]).getD i []) = 0 :: o.getD i [] ++ [0] := by
  intro o
  induction o with
  | nil => intro i hi; exact absurd hi (Nat.not_lt_zero i)
  | cons r t ih =>
    intro i hi
    cases i with
    | zero => rfl
    | succ i => exact ih i (Nat.lt_of_succ_lt_succ hi)

lemma getD_append_left_list : ∀ (l l' : List (List ℕ)) (i : ℕ), i < l.length →
    (l ++ l').getD i [] = l.getD i [] := by
  intro l
  induction l with
  | nil => intro l' i hi; exact absurd hi (Nat.not_lt_zero i)
  | cons a t ih =>
    intro l' i hi
    cases i with
    | zero => rfl
    | succ i => exact ih l' i (Nat.lt_of_succ_lt_succ hi)

lemma getD_append_at_length : ∀ (l : List (List ℕ)) (a : List ℕ),
    (l ++ [a]).getD l.length [] = a := by
  intro l
  induction l with
  | nil => intro a; rfl
  | cons x t ih => intro a; exact ih a

lemma getD_of_length_le_list : ∀ (l : List (List ℕ)) (i : ℕ), l.length ≤ i →
    l.getD i [] = [] := by
  intro l
  induction l with
  | nil => intro i _; cases i <;> rfl
  | cons a t ih =>
    intro i hi
    cases i with
    | zero => exact absurd hi (Nat.not_succ_le_zero _)
    | succ i => exact ih i (Nat.le_of_succ_le_succ hi)

lemma padMask_length (o : Gray) : (padMask o).length = o.length + 2 := by
  unfold padMask
  simp [List.length_append, List.length_map]

lemma padMask_row (o : Gray) (i : ℕ) (hi : i < o.length) :
    (padMask o).getD (i + 1) [] = 0 :: o.getD i [] ++ [0] := by
  unfold padMask
  show ((o.map fun row => 0 :: row ++ [0]) ++ [List.replicate ((o.headD []).length + 2) 0]).getD i [] = _
  rw [getD_append_left_list _ _ i (by simpa using hi)]
  exact getD_map_pad o i hi

lemma padMask_row_length (o : Gray) (i : ℕ) (hi : i < o.length) :
    ((padMask o).getD (i + 1) []).length = (o.getD i []).length + 2 := by
  rw [padMask_row o i hi]
  simp

lemma padMask_interior (o : Gray) (i j : ℕ) (hi : i < o.length) :
    getPx (padMask o) (i + 1) (j + 1) = getPx o i j := by
  unfold getPx
  rw [padMask_row o i hi]
  show ((o.getD i [] ++ [0]).getD j 0) = (o.getD i []).getD j 0
  exact getD_append_single_zero _ j

lemma padMask_top (o : Gray) (j : ℕ) : getPx (padMask o) 0 j = 0 := by
  unfold getPx padMask
  exact getD_replicate_zero _ j

lemma padMask_bottom (o : Gray) (j : ℕ) :
    getPx (padMask o) (o.length + 1) j = 0 := by
  unfold getPx padMask
  show (((o.map fun row => 0 :: row ++ [0]) ++ [List.replicate ((o.headD []).length + 2) 0]).getD o.length []).getD j 0 = 0
  have hlen : (o.map fun row => 0 :: row ++ [0]).length = o.length := List.length_map o _
  rw [← hlen, getD_append_at_length]
  exact getD_replicate_zero _ j

lemma padMask_left (o : Gray) (i : ℕ) : getPx (padMask o) i 0 = 0 := by
  cases i with
  | zero => exact padMask_top o 0
  | succ i =>
    rcases Nat.lt_trichotomy i o.length with hlt | heq | hgt
    · unfold getPx
      rw [padMask_row o i hlt]
      rfl
    · subst heq
      exact padMask_bottom o 0
    · unfold getPx padMask
      show (((o.map fun row => 0 :: row ++ [0]) ++ [List.replicate ((o.headD []).length + 2) 0]).getD i []).getD 0 0 = 0
      rw [getD_of_length_le_list]
      · rfl
      · simp [List.length_append, List.length_map]
        omega

lemma padMask_right (o : Gray) (i : ℕ) (hi : i < o.length) :
    getPx (padMask o) (i + 1) ((o.getD i []).length + 1) = 0 := by
  unfold getPx
  rw [padMask_row o i hi]
  show ((o.getD i [] ++ [0]).getD (o.getD i []).length 0) = 0
  induction (o.getD i []) with
  | nil => rfl
  | cons a t ih => exact ih

/-! ### Claim theorems -/

/-- C1: For every input frame and parameter set, `segment_area` attempts the
four stages in exactly the order threshold, opening, outline, flood-fill,
stops at the first stage whose mask yields a qualifying contour, and builds
the returned region from that stage's selected contour; the attempted-stage
trace records exactly the stages up to and including the first successful
one, so later stages are never evaluated. -/
theorem segment_cascade_first_success {M C : Type} (P : Prims M C) (msg : M)
    (outpath : Bool) (th : ℕ) (c_low c_high : ℚ) (conn : ℕ)
    (a_low a_high : ℚ) :
    (∀ c, extract_contour P (threshMaskOf P msg th) c_low c_high a_low a_high = some c →
      segment_area P msg outpath th c_low c_high conn a_low a_high = .ok (mkResult P c) ∧
      segment_area_stages P msg th c_low c_high conn a_low a_high = (some c, ["threshold"])) ∧
    (∀ c, extract_contour P (threshMaskOf P msg th) c_low c_high a_low a_high = none →
      extract_contour P (openingMaskOf P msg th) c_low c_high a_low a_high = some c →
      segment_area P msg outpath th c_low c_high conn a_low a_high = .ok (mkResult P c) ∧
      segment_area_stages P msg th c_low c_high conn a_low a_high =
        (some c, ["threshold", "opening"])) ∧
    (∀ c, extract_contour P (threshMaskOf P msg th) c_low c_high a_low a_high = none →
      extract_contour P (openingMaskOf P msg th) c_low c_high a_low a_high = none →
      extract_contour P (outlineMaskOf P msg th) c_low c_high a_low a_high = some c →
      segment_area P msg outpath th c_low c_high conn a_low a_high = .ok (mkResult P c) ∧
      segment_area_stages P msg th c_low c_high conn a_low a_high =
        (some c, ["threshold", "opening", "outline"])) ∧
    (∀ c, extract_contour P (threshMaskOf P msg th) c_low c_high a_low a_high = none →
      extract_contour P (openingMaskOf P msg th) c_low c_high a_low a_high = none →
      extract_contour P (outlineMaskOf P msg th) c_low c_high a_low a_high = none →
      extract_contour P (floodedOf P msg th conn) c_low c_high a_low a_high = some c →
      segment_area P msg outpath th c_low c_high conn a_low a_high = .ok (mkResult P c) ∧
      segment_area_stages P msg th c_low c_high conn a_low a_high =
        (some c, ["threshold", "opening", "outline", "flooded"])) := by
  refine ⟨?_, ?_, ?_, ?_⟩
  · intro c h1
    exact ⟨by simp [segment_area, cascadeContour, h1],
           by simp [segment_area_stages, h1]⟩
  · intro c h1 h2
    exact ⟨by simp [segment_area, cascadeContour, h1, h2],
           by simp [segment_area_stages, h1, h2]⟩
  · intro c h1 h2 h3
    exact ⟨by simp [segment_area, cascadeContour, h1, h2, h3],
           by simp [segment_area_stages, h1, h2, h3]⟩
  · intro c h1 h2 h3 h4
    exact ⟨by simp [segment_area, cascadeContour, h1, h2, h3, h4],
           by simp [segment_area_stages, h1, h2, h3, h4]⟩

/-- C1 witness: on a concrete frame and primitives where the threshold
stage already yields the single contour, the cascade returns from the first
stage with the stage trace `["threshold"]`. -/
theorem segment_cascade_first_success_witness :
    segment_area testPrims150 redPixelFrame false 200 50 270 4 100 200 =
      .ok (mkResult testPrims150 150) ∧
    segment_area_stages testPrims150 redPixelFrame 200 50 270 4 100 200 =
      (some 150, ["threshold"]) :=
  (segment_cascade_first_success testPrims150 redPixelFrame false 200 50 270
    4 100 200).1 150 rfl

/-- C3: If all four cascade stages fail to yield a qualifying contour,
`segment_area` fails with the explicit no-contour-found error and no region
value of any kind is produced. -/
theorem segment_all_stages_fail_error {M C : Type} (P : Prims M C) (msg : M)
    (outpath : Bool) (th : ℕ) (c_low c_high : ℚ) (conn : ℕ)
    (a_low a_high : ℚ)
    (h1 : extract_contour P (threshMaskOf P msg th) c_low c_high a_low a_high = none)
    (h2 : extract_contour P (openingMaskOf P msg th) c_low c_high a_low a_high = none)
    (h3 : extract_contour P (outlineMaskOf P msg th) c_low c_high a_low a_high = none)
    (h4 : extract_contour P (floodedOf P msg th conn) c_low c_high a_low a_high = none) :
    segment_area P msg outpath th c_low c_high conn a_low a_high =
      .error .noContourFound ∧
    ∀ r : SegResult,
      segment_area P msg outpath th c_low c_high conn a_low a_high ≠ .ok r := by
  have hmain : segment_area P msg outpath th c_low c_high conn a_low a_high =
      .error .noContourFound := by
    simp [segment_area, cascadeContour, h1, h2, h3, h4]
  refine ⟨hmain, ?_⟩
  intro r hr
  rw [hmain] at hr
  exact Except.noConfusion hr

/-- C3 witness: with primitives that never produce a contour, the concrete
invocation fails with the no-contour-found error. -/
theorem segment_all_stages_fail_error_witness :
    segment_area testPrimsNone redPixelFrame false 200 50 270 4 100 200 =
      .error .noContourFound ∧
    ∀ r : SegResult,
      segment_area testPrimsNone redPixelFrame false 200 50 270 4 100 200 ≠ .ok r :=
  segment_all_stages_fail_error testPrimsNone redPixelFrame false 200 50 270
    4 100 200 rfl rfl rfl rfl

/-- The band `a_low < area < a_high` is empty when `a_high ≤ a_low`, so
`_extract_contour` returns no contour on any mask. -/
lemma extract_contour_empty_band {M C : Type} (P : Prims M C) (g : Gray)
    (c_low c_high a_low a_high : ℚ) (h : a_high ≤ a_low) :
    extract_contour P g c_low c_high a_low a_high = none := by
  show selectContour P.contourArea a_low a_high _ = none
  unfold selectContour
  rw [selectFold_noband_eq]
  intro c _ hband
  exact absurd (lt_trans hband.1 hband.2) (not_lt_of_le h)

/-- C4 counterexample: with the band inverted (`a_low = 200 ≥ 100 = a_high`)
`segment_area` does not fail fast with a distinct invalid-argument failure:
it evaluates all four stages (the full stage trace is produced, so the image
transforms run) and then raises the same generic no-contour-found error. -/
theorem segment_empty_band_cex :
    segment_area testPrims150 redPixelFrame false 200 50 270 4 200 100 =
      .error .noContourFound ∧
    segment_area_stages testPrims150 redPixelFrame 200 50 270 4 200 100 =
      (none, ["threshold", "opening", "outline", "flooded"]) ∧
    (100 : ℚ) ≤ 200 :=
  ⟨rfl, rfl, by norm_num⟩

/-- C4 (amended): if `a_high ≤ a_low` the area band is empty, so
`segment_area` always fails — but only after attempting all four cascade
stages, and with the same generic no-contour-found error; there is no
separate invalid-argument check and no fast path. -/
theorem segment_empty_band_generic_failure {M C : Type} (P : Prims M C)
    (msg : M) (outpath : Bool) (th : ℕ) (c_low c_high : ℚ) (conn : ℕ)
    (a_low a_high : ℚ) (h : a_high ≤ a_low) :
    segment_area P msg outpath th c_low c_high conn a_low a_high =
      .error .noContourFound ∧
    segment_area_stages P msg th c_low c_high conn a_low a_high =
      (none, ["threshold", "opening", "outline", "flooded"]) := by
  have e1 := extract_contour_empty_band P (threshMaskOf P msg th) c_low c_high a_low a_high h
  have e2 := extract_contour_empty_band P (openingMaskOf P msg th) c_low c_high a_low a_high h
  have e3 := extract_contour_empty_band P (outlineMaskOf P msg th) c_low c_high a_low a_high h
  have e4 := extract_contour_empty_band P (floodedOf P msg th conn) c_low c_high a_low a_high h
  exact ⟨by simp [segment_area, cascadeContour, e1, e2, e3, e4],
         by simp [segment_area_stages, e1, e2, e3, e4]⟩

/-- C4 amended-claim witness at a concrete inverted band. -/
theorem segment_empty_band_generic_failure_witness :
    segment_area testPrims150 bluePixelFrame false 200 50 270 4 300 250 =
      .error .noContourFound ∧
    segment_area_stages testPrims150 bluePixelFrame 200 50 270 4 300 250 =
      (none, ["threshold", "opening", "outline", "flooded"]) :=
  segment_empty_band_generic_failure testPrims150 bluePixelFrame false 200 50
    270 4 300 250 (by norm_num)

/-- C2 counterexample: with `a_low = -1`, `a_high = 10` and a single
degenerate contour of area 0 — an area strictly inside the band — the
extraction still returns no contour, because the running maximum starts at
`0.0` and is only beaten by a strictly larger area.  So a stage can yield no
contour even though a contour's area lies strictly inside the band,
contradicting the claim as stated. -/
theorem extract_zero_area_boundary_cex :
    extract_contour testPrimsZero [[255]] 50 270 (-1) 10 = none ∧
    (0 : ℕ) ∈ testPrimsZero.findContours
      (testPrimsZero.morphologyEx_close
        (testPrimsZero.canny [[255]] 50 270 3) 3 1) ∧
    (-1 : ℚ) < testPrimsZero.contourArea 0 ∧
    testPrimsZero.contourArea 0 < 10 := by
  refine ⟨rfl, ?_, ?_, ?_⟩
  · show (0 : ℕ) ∈ [0]
    exact List.mem_singleton.mpr rfl
  · show (-1 : ℚ) < ((0 : ℕ) : ℚ)
    norm_num
  · show ((0 : ℕ) : ℚ) < 10
    norm_num

/-- C2 (amended): provided `0 ≤ a_low` (in particular for every nonnegative
band, and `cv2.contourArea` is nonnegative), `_extract_contour` yields no
contour exactly when no enumerated contour's area lies strictly inside the
band, and a returned contour is an enumerated contour whose area is strictly
inside the band (so a contour whose area equals `a_low` or `a_high` is never
selected) and maximal among all enumerated in-band contours.  The amendment
the counterexample forces: with `a_low < 0`, a contour of area 0 counts as
in-band for the claim but can never be selected, because selection
additionally requires the area to exceed the initial running maximum `0.0`. -/
theorem extract_selects_max_in_band {M C : Type} (P : Prims M C) (g : Gray)
    (c_low c_high a_low a_high : ℚ) (hal : 0 ≤ a_low) :
    (extract_contour P g c_low c_high a_low a_high = none ↔
      ∀ c ∈ P.findContours (P.morphologyEx_close (P.canny g c_low c_high 3) 3 1),
        ¬(a_low < P.contourArea c ∧ P.contourArea c < a_high)) ∧
    (∀ b, extract_contour P g c_low c_high a_low a_high = some b →
      b ∈ P.findContours (P.morphologyEx_close (P.canny g c_low c_high 3) 3 1) ∧
      a_low < P.contourArea b ∧ P.contourArea b < a_high ∧
      ∀ c ∈ P.findContours (P.morphologyEx_close (P.canny g c_low c_high 3) 3 1),
        a_low < P.contourArea c → P.contourArea c < a_high →
        P.contourArea c ≤ P.contourArea b) := by
  constructor
  · exact selectContour_none_iff P.contourArea a_low a_high
      (P.findContours (P.morphologyEx_close (P.canny g c_low c_high 3) 3 1)) hal
  · intro b hb
    exact selectContour_some_spec P.contourArea a_low a_high
      (P.findContours (P.morphologyEx_close (P.canny g c_low c_high 3) 3 1)) b hb

/-- C2 amended-claim witness: a concrete extraction whose selected contour
is the enumerated contour with area strictly inside `(100, 200)`. -/
theorem extract_selects_max_in_band_witness :
    extract_contour testPrims150 [[0]] 50 270 100 200 = some 150 ∧
    (100 : ℚ) < testPrims150.contourArea 150 ∧
    testPrims150.contourArea 150 < 200 := by
  have h := (extract_selects_max_in_band testPrims150 [[0]] 50 270 100 200
    (by norm_num)).2 150 rfl
  exact ⟨rfl, h.2.1, h.2.2.1⟩

/-- C10: in the selection loop the running maximum is updated only on a
strictly greater area: appending a contour whose area does not exceed the
currently selected one leaves the selection unchanged (a later contour with
equal area never replaces the earliest maximal one), while appending an
in-band contour with strictly greater area does replace it. -/
theorem select_equal_area_keeps_first {C : Type} (area : C → ℚ)
    (a_low a_high : ℚ) (cs : List C) (b c : C)
    (hb : selectContour area a_low a_high cs = some b) :
    (area c ≤ area b → selectContour area a_low a_high (cs ++ [c]) = some b) ∧
    (a_low < area c → area c < a_high → area b < area c →
      selectContour area a_low a_high (cs ++ [c]) = some c) := by
  have hfold : (cs.foldl (selectStep area a_low a_high) (0, none)).2 = some b := hb
  have hfst : (cs.foldl (selectStep area a_low a_high) (0, none)).1 = area b :=
    selectFold_link area a_low a_high cs (0, none)
      (fun b' h => absurd h Option.noConfusion) b hfold
  constructor
  · intro hle
    show ((cs ++ [c]).foldl (selectStep area a_low a_high) (0, none)).2 = some b
    rw [List.foldl_append]
    show (selectStep area a_low a_high
      (cs.foldl (selectStep area a_low a_high) (0, none)) c).2 = some b
    rcases selectStep_cases area a_low a_high
        (cs.foldl (selectStep area a_low a_high) (0, none)) c with
      h | ⟨⟨_, _, hlt⟩, h⟩
    · rw [h]; exact hfold
    · exfalso
      rw [hfst] at hlt
      exact absurd hle (not_le_of_lt hlt)
  · intro h1 h2 h3
    show ((cs ++ [c]).foldl (selectStep area a_low a_high) (0, none)).2 = some c
    rw [List.foldl_append]
    have hgen : ∀ s : ℚ × Option C, s.1 = area b →
        (selectStep area a_low a_high s c).2 = some c := by
      intro s hsfst
      unfold selectStep
      rw [if_pos ⟨h1, h2⟩, if_pos (by rw [hsfst]; exact h3)]
    exact hgen _ hfst

/-- C10 witness: two contours of equal area 150 — the earlier one stays
selected — and a later strictly larger in-band contour, which replaces it. -/
theorem select_equal_area_keeps_first_witness :
    selectContour (fun _ : ℕ => (150 : ℚ)) 100 200 ([0] ++ [1]) = some 0 ∧
    selectContour (fun c : ℕ => (c : ℚ)) 100 200 ([150] ++ [199]) = some 199 :=
  ⟨(select_equal_area_keeps_first (fun _ : ℕ => (150 : ℚ)) 100 200 [0] 0 1
      rfl).1 (le_refl _),
   (select_equal_area_keeps_first (fun c : ℕ => (c : ℚ)) 100 200 [150] 150 199
      rfl).2 (by norm_num) (by norm_num) (by norm_num)⟩

/-- C5: `segment_red_area` and `segment_blue_area` attempt only the single
direct threshold-then-extract step on their channel: they fail with the
no-contour error exactly when that single extraction yields no qualifying
contour, they succeed with the region of exactly that extraction's contour,
and their behaviour is unchanged when the primitives used only by the
fallback stages of `segment_area` (morphological opening, morphological
gradient, flood fill) are replaced arbitrarily — those stages are never
attempted. -/
theorem segment_channel_variants_single_stage {M C : Type} (P : Prims M C)
    (msg : M) (outpath : Bool) (th : ℕ) (c_low c_high a_low a_high : ℚ) :
    (segment_red_area P msg outpath th c_low c_high a_low a_high =
        .error .noContourFound ↔
      extract_contour P (threshold (redChannel (P.imgmsg2img msg)) th)
        c_low c_high a_low a_high = none) ∧
    (∀ c, extract_contour P (threshold (redChannel (P.imgmsg2img msg)) th)
        c_low c_high a_low a_high = some c →
      segment_red_area P msg outpath th c_low c_high a_low a_high =
        .ok (mkResult P c)) ∧
    (segment_blue_area P msg outpath th c_low c_high a_low a_high =
        .error .noContourFound ↔
      extract_contour P (threshold (blueChannel (P.imgmsg2img msg)) th)
        c_low c_high a_low a_high = none) ∧
    (∀ c, extract_contour P (threshold (blueChannel (P.imgmsg2img msg)) th)
        c_low c_high a_low a_high = some c →
      segment_blue_area P msg outpath th c_low c_high a_low a_high =
        .ok (mkResult P c)) ∧
    (∀ (mo mg : Gray → ℕ → ℕ → Gray)
        (ff : Gray → Gray → ℕ × ℕ → ℕ × ℕ × ℕ → ℕ × ℕ × ℕ → ℕ × ℕ × ℕ → ℕ → Gray),
      segment_red_area (P.withFallbackOps mo mg ff) msg outpath th c_low c_high
        a_low a_high = segment_red_area P msg outpath th c_low c_high a_low a_high ∧
      segment_blue_area (P.withFallbackOps mo mg ff) msg outpath th c_low c_high
        a_low a_high = segment_blue_area P msg outpath th c_low c_high a_low a_high) := by
  refine ⟨?_, ?_, ?_, ?_, ?_⟩
  · cases h : extract_contour P (threshold (redChannel (P.imgmsg2img msg)) th)
        c_low c_high a_low a_high with
    | none => simp [segment_red_area, h]
    | some c => simp [segment_red_area, h]
  · intro c h
    simp [segment_red_area, h]
  · cases h : extract_contour P (threshold (blueChannel (P.imgmsg2img msg)) th)
        c_low c_high a_low a_high with
    | none => simp [segment_blue_area, h]
    | some c => simp [segment_blue_area, h]
  · intro c h
    simp [segment_blue_area, h]
  · intro mo mg ff
    exact ⟨rfl, rfl⟩

/-- C5 witness: a concrete success on the red variant via the single
extraction, and a concrete immediate failure when that extraction is empty. -/
theorem segment_channel_variants_single_stage_witness :
    segment_red_area testPrims150 [[(10, 20, 255)]] false 200 50 270 100 200 =
      .ok (mkResult testPrims150 150) ∧
    segment_blue_area testPrimsNone [[(10, 20, 255)]] false 200 50 270 100 200 =
      .error .noContourFound :=
  ⟨(segment_channel_variants_single_stage testPrims150 [[(10, 20, 255)]] false
      200 50 270 100 200).2.1 150 rfl,
   (segment_channel_variants_single_stage testPrimsNone [[(10, 20, 255)]] false
      200 50 270 100 200).2.2.1.mpr rfl⟩

/-- Thresholding a plane in which every intensity lies at or below the
threshold produces an all-zero mask. -/
lemma threshold_all_le_zero (g : Gray) (th : ℕ)
    (h : ∀ row ∈ g, ∀ p ∈ row, p ≤ th) :
    ∀ row ∈ threshold g th, ∀ p ∈ row, p = 0 := by
  intro row hrow p hp
  unfold threshold at hrow
  rcases List.mem_map.mp hrow with ⟨row0, hrow0, rfl⟩
  rcases List.mem_map.mp hp with ⟨p0, hp0, rfl⟩
  rw [if_neg (not_lt_of_le (h row0 hrow0 p0 hp0))]

/-- C6: `segment_red_area` thresholds the frame's red channel
(`cv2.split(img)[2]`) and `segment_blue_area` its blue channel
(`cv2.split(img)[0]`).  Assuming the library fact that a constant-zero
image yields no contours, a frame whose blue channel is nowhere above the
threshold (a red patch on a neutral background) is found by the red variant
and rejected by the blue variant, and vice versa, under identical
parameters. -/
theorem segment_red_blue_channel_routing {M C : Type} (P : Prims M C)
    (th : ℕ) (c_low c_high a_low a_high : ℚ)
    (hz : ∀ g : Gray, (∀ row ∈ g, ∀ p ∈ row, p = 0) →
      extract_contour P g c_low c_high a_low a_high = none) :
    (∀ (msg : M) (outpath : Bool) (c : C),
      (∀ row ∈ blueChannel (P.imgmsg2img msg), ∀ p ∈ row, p ≤ th) →
      extract_contour P (threshold (redChannel (P.imgmsg2img msg)) th)
        c_low c_high a_low a_high = some c →
      segment_red_area P msg outpath th c_low c_high a_low a_high =
        .ok (mkResult P c) ∧
      segment_blue_area P msg outpath th c_low c_high a_low a_high =
        .error .noContourFound) ∧
    (∀ (msg : M) (outpath : Bool) (c : C),
      (∀ row ∈ redChannel (P.imgmsg2img msg), ∀ p ∈ row, p ≤ th) →
      extract_contour P (threshold (blueChannel (P.imgmsg2img msg)) th)
        c_low c_high a_low a_high = some c →
      segment_blue_area P msg outpath th c_low c_high a_low a_high =
        .ok (mkResult P c) ∧
      segment_red_area P msg outpath th c_low c_high a_low a_high =
        .error .noContourFound) := by
  constructor
  · intro msg outpath c hneutral hred
    have hblue : extract_contour P
        (threshold (blueChannel (P.imgmsg2img msg)) th)
        c_low c_high a_low a_high = none :=
      hz _ (threshold_all_le_zero _ th hneutral)
    exact ⟨by simp [segment_red_area, hred],
           by simp [segment_blue_area, hblue]⟩
  · intro msg outpath c hneutral hblue
    have hred : extract_contour P
        (threshold (redChannel (P.imgmsg2img msg)) th)
        c_low c_high a_low a_high = none :=
      hz _ (threshold_all_le_zero _ th hneutral)
    exact ⟨by simp [segment_blue_area, hblue],
           by simp [segment_red_area, hred]⟩

/-- C6 witness: with the nonzero-mask contour model, a red one-pixel patch
is found by `segment_red_area` and missed by `segment_blue_area`, and a
blue one-pixel patch behaves the other way around. -/
theorem segment_red_blue_channel_routing_witness :
    segment_red_area testPrimsNZ redPixelFrame false 200 50 270 100 200 =
      .ok (mkResult testPrimsNZ 150) ∧
    segment_blue_area testPrimsNZ redPixelFrame false 200 50 270 100 200 =
      .error .noContourFound ∧
    segment_blue_area testPrimsNZ bluePixelFrame false 200 50 270 100 200 =
      .ok (mkResult testPrimsNZ 150) ∧
    segment_red_area testPrimsNZ bluePixelFrame false 200 50 270 100 200 =
      .error .noContourFound := by
  have hz : ∀ g : Gray, (∀ row ∈ g, ∀ p ∈ row, p = 0) →
      extract_contour testPrimsNZ g 50 270 100 200 = none := by
    intro g hg
    show selectContour testPrimsNZ.contourArea 100 200 (fcNonzero g) = none
    have hzero : fcNonzero g = [] := by
      unfold fcNonzero
      rw [if_pos]
      rw [List.all_eq_true]
      intro row hrow
      rw [List.all_eq_true]
      intro p hp
      exact beq_iff_eq.mpr (hg row hrow p hp)
    rw [hzero]
    rfl
  have h1 := (segment_red_blue_channel_routing testPrimsNZ 200 50 270 100 200
    hz).1 redPixelFrame false 150 (by decide) rfl
  have h2 := (segment_red_blue_channel_routing testPrimsNZ 200 50 270 100 200
    hz).2 bluePixelFrame false 150 (by decide) rfl
  exact ⟨h1.1, h1.2, h2.1, h2.2⟩

/-- C7: when the first three stages fail, `segment_area`'s result is the
extraction over the image produced by flood-filling the original grayscale
image (not any upstream mask) with the fill mask being the outline mask
padded by exactly one zero pixel on each border, from the fixed seed
`(h + 2, 0)` whose second (y) coordinate is 0 — adjacent to the top border —
with the fixed tolerances `loDiff = (50, 50, 50)`, `upDiff = (255, 255, 255)`
and flags combining the caller-supplied connectivity with
`cv2.FLOODFILL_FIXED_RANGE`.  The padding conjuncts state that the mask has
two more rows, each interior row two more columns, an interior identical to
the outline mask shifted by one, and zero borders. -/
theorem segment_flood_stage_spec {M C : Type} (P : Prims M C) (msg : M)
    (outpath : Bool) (th : ℕ) (c_low c_high : ℚ) (conn : ℕ)
    (a_low a_high : ℚ)
    (h1 : extract_contour P (threshMaskOf P msg th) c_low c_high a_low a_high = none)
    (h2 : extract_contour P (openingMaskOf P msg th) c_low c_high a_low a_high = none)
    (h3 : extract_contour P (outlineMaskOf P msg th) c_low c_high a_low a_high = none) :
    (segment_area P msg outpath th c_low c_high conn a_low a_high =
      match extract_contour P
          (P.floodFill (grayOf P msg) (padMask (outlineMaskOf P msg th))
            (floodSeed (outlineMaskOf P msg th)) (255, 255, 255) (50, 50, 50)
            (255, 255, 255) (conn ||| floodfillFixedRange))
          c_low c_high a_low a_high with
      | some c => Except.ok (mkResult P c)
      | none => Except.error SegError.noContourFound) ∧
    (floodSeed (outlineMaskOf P msg th)).2 = 0 ∧
    (∀ o : Gray, (padMask o).length = o.length + 2) ∧
    (∀ (o : Gray) (i : ℕ), i < o.length →
      ((padMask o).getD (i + 1) []).length = (o.getD i []).length + 2) ∧
    (∀ (o : Gray) (i j : ℕ), i < o.length →
      getPx (padMask o) (i + 1) (j + 1) = getPx o i j) ∧
    (∀ (o : Gray) (j : ℕ), getPx (padMask o) 0 j = 0) ∧
    (∀ (o : Gray) (j : ℕ), getPx (padMask o) (o.length + 1) j = 0) ∧
    (∀ (o : Gray) (i : ℕ), getPx (padMask o) i 0 = 0) ∧
    (∀ (o : Gray) (i : ℕ), i < o.length →
      getPx (padMask o) (i + 1) ((o.getD i []).length + 1) = 0) := by
  refine ⟨?_, rfl, padMask_length, padMask_row_length, ?_, padMask_top,
    padMask_bottom, padMask_left, padMask_right⟩
  · cases h4 : extract_contour P (floodedOf P msg th conn) c_low c_high a_low a_high with
    | none =>
      have h4f : extract_contour P
          (P.floodFill (grayOf P msg) (padMask (outlineMaskOf P msg th))
            (floodSeed (outlineMaskOf P msg th)) (255, 255, 255) (50, 50, 50)
            (255, 255, 255) (conn ||| floodfillFixedRange))
          c_low c_high a_low a_high = none := h4
      rw [h4f]
      simp [segment_area, cascadeContour, h1, h2, h3, h4]
    | some c =>
      have h4f : extract_contour P
          (P.floodFill (grayOf P msg) (padMask (outlineMaskOf P msg th))
            (floodSeed (outlineMaskOf P msg th)) (255, 255, 255) (50, 50, 50)
            (255, 255, 255) (conn ||| floodfillFixedRange))
          c_low c_high a_low a_high = some c := h4
      rw [h4f]
      simp [segment_area, cascadeContour, h1, h2, h3, h4]
  · intro o i j hi
    exact padMask_interior o i j hi

/-- C7 witness: with contour-free primitives the first three stage
hypotheses hold definitionally and the concrete invocation reduces to the
flood-fill extraction, which is also empty. -/
theorem segment_flood_stage_spec_witness :
    segment_area testPrimsNone [[(0, 0, 5)]] false 200 50 270 4 100 200 =
      .error .noContourFound := by
  have h := (segment_flood_stage_spec testPrimsNone [[(0, 0, 5)]] false 200 50
    270 4 100 200 rfl rfl rfl).1
  rw [h]
  rfl

/-- C8: two invocations of `segment_area` on the same frame and parameters
that both succeed return the identical rotated rectangle, the identical
corner-point list, and the identical axis-aligned box. -/
theorem segment_area_deterministic {M C : Type} (P : Prims M C) (msg : M)
    (outpath : Bool) (th : ℕ) (c_low c_high : ℚ) (conn : ℕ)
    (a_low a_high : ℚ) (r₁ r₂ : SegResult)
    (h₁ : segment_area P msg outpath th c_low c_high conn a_low a_high = .ok r₁)
    (h₂ : segment_area P msg outpath th c_low c_high conn a_low a_high = .ok r₂) :
    r₁.1.1 = r₂.1.1 ∧ r₁.1.2 = r₂.1.2 ∧ r₁.2 = r₂.2 := by
  rw [h₁] at h₂
  injection h₂ with h
  rw [h]
  exact ⟨rfl, rfl, rfl⟩

/-- C8 witness: a concrete successful invocation, compared with itself
through the determinism theorem. -/
theorem segment_area_deterministic_witness :
    segment_area testPrims150 redPixelFrame false 200 50 270 4 100 200 =
      .ok (mkResult testPrims150 150) ∧
    (mkResult testPrims150 150).1.1 = (mkResult testPrims150 150).1.1 ∧
    (mkResult testPrims150 150).1.2 = (mkResult testPrims150 150).1.2 ∧
    (mkResult testPrims150 150).2 = (mkResult testPrims150 150).2 :=
  ⟨rfl, segment_area_deterministic testPrims150 redPixelFrame false 200 50 270
    4 100 200 (mkResult testPrims150 150) (mkResult testPrims150 150) rfl rfl⟩

/-- C9: `segment_area` never mutates the input frame.  With the frame
buffer threaded explicitly, after any invocation — successful or failed,
with or without the diagnostic output path — the frame's pixels equal the
converted input message unchanged, and the returned result is exactly that
of `segment_area`; every in-place drawing in the source targets the
separate visualization copy `sample`. -/
theorem segment_never_mutates_frame {M C : Type} (P : Prims M C) (msg : M)
    (outpath : Bool) (th : ℕ) (c_low c_high : ℚ) (conn : ℕ)
    (a_low a_high : ℚ) :
    (segment_area_frame P msg outpath th c_low c_high conn a_low a_high).2 =
      P.imgmsg2img msg ∧
    (segment_area_frame P msg outpath th c_low c_high conn a_low a_high).1 =
      segment_area P msg outpath th c_low c_high conn a_low a_high := by
  cases h : cascadeContour P msg th c_low c_high conn a_low a_high with
  | none => exact ⟨by simp [segment_area_frame, h], by simp [segment_area_frame, segment_area, h]⟩
  | some c =>
    cases outpath with
    | false =>
      exact ⟨by simp [segment_area_frame, h],
             by simp [segment_area_frame, segment_area, h, mkResult]⟩
    | true =>
      exact ⟨by simp [segment_area_frame, h],
             by simp [segment_area_frame, segment_area, h, mkResult]⟩
